import Mathlib

/-!
Verification of the GermanBot core (src/german_bot.py) against its
natural-language specification.

The Python source is shallowly embedded: each function the claims touch
becomes a Lean definition over explicit state (the module-level `words`
list, the APScheduler job list, the per-user `user_data` session bag).
External I/O (the Google-Sheets fetch, Telegram sends, exceptions raised
by downstream calls) is passed in as explicit outcome parameters, so the
embedded control flow mirrors the `try`/`except`/`finally` structure of
the source line for line.
-/

namespace GermanBot

/-- Whitespace as Python's `str.strip()` and `int()` treat it (the ASCII
whitespace the bot's inputs can contain). -/
def isSpaceChar (c : Char) : Bool := c = ' ' || c = '\t' || c = '\n' || c = '\r'

/-- An ASCII decimal digit (the only digits the bot's keyboards emit). -/
def isDigitChar (c : Char) : Bool := 48 ≤ c.toNat && c.toNat ≤ 57

/-- The numeric value of a digit string, as Python's `int()` computes it. -/
def digitsToNat (cs : List Char) : Nat :=
  cs.foldl (fun n c => n * 10 + (c.toNat - 48)) 0

/-- Drop leading and trailing whitespace from a character list. -/
def stripChars (cs : List Char) : List Char :=
  ((cs.dropWhile isSpaceChar).reverse.dropWhile isSpaceChar).reverse

/-- Python `str.strip()`. -/
def pyStrip (s : String) : String := ⟨stripChars s.data⟩

/-- A vocabulary record, as built by `load_words_from_sheets` (the Python
dict with keys `Німецькою`, `Українською`, `Англійською`, `Приклад`,
`Мнемотехніка`; field names are transliterated). -/
structure Word where
  nimetskoyu : String
  ukrainskoyu : String
  anhliyskoyu : String
  pryklad : String
  mnemotekhnika : String
deriving DecidableEq, Repr

/-- The row-to-dict construction from `load_words_from_sheets`:
each of the first five cells is stripped (`.strip()` ↦ `pyStrip`);
the fifth cell falls back to `""` when the row is short. -/
def rowToWord (row : List String) : Word :=
  { nimetskoyu := pyStrip (row.getD 0 "")
    ukrainskoyu := pyStrip (row.getD 1 "")
    anhliyskoyu := pyStrip (row.getD 2 "")
    pryklad := pyStrip (row.getD 3 "")
    mnemotekhnika := if row.length > 4 then pyStrip (row.getD 4 "") else "" }

/-- One iteration of the parsing loop of `load_words_from_sheets`:
a row is considered only if it has at least 5 cells and some non-empty cell
(`len(row) >= 5 and any(row)`), and the resulting record is appended only
if its first three stripped fields are all non-empty. -/
def parse_step (acc : List Word) (row : List String) : List Word :=
  if row.length ≥ 5 ∧ row.any (fun s => s ≠ "") then
    if (rowToWord row).nimetskoyu ≠ "" ∧ (rowToWord row).ukrainskoyu ≠ "" ∧
        (rowToWord row).anhliyskoyu ≠ "" then
      acc ++ [rowToWord row]
    else acc
  else acc

/-- The parsing loop of `load_words_from_sheets` over the non-header rows,
building the new `words` list from empty. -/
def parse_rows (rows : List (List String)) : List Word :=
  rows.foldl parse_step []

/-- `load_words_from_sheets`, embedded as a function of the fetch outcome
(`sheet.get_all_values()`, including credential/transport errors raised
before any data arrives, which the `except` clauses turn into `False`)
and of the current module-level `words` list. Returns the Python return
value paired with the `words` list after the call. The `words.clear()`
plus append loop runs only after a successful fetch with at least two
rows, and no step of it can raise, so it is rendered as `parse_rows`. -/
def load_words_from_sheets (fetch : Except Unit (List (List String)))
    (words : List Word) : Bool × List Word :=
  match fetch with
  | .error _ => (false, words)
  | .ok all_values =>
      if all_values.length < 2 then (false, words)
      else (true, parse_rows (all_values.drop 1))

/-- The list comprehension in `get_wrong_answers`:
`[w['Українською'] for w in words if w['Українською'] != correct_answer]` —
the translations of every word whose translation differs from the correct
answer (positions kept, duplicate values kept). -/
def available_answers (words : List Word) (correct : String) : List String :=
  (words.filter (fun w => w.ukrainskoyu ≠ correct)).map (fun w => w.ukrainskoyu)

/-- `get_wrong_answers`, embedded relationally because of `random.sample`:
`wa` is a possible return value iff it has length `min 3 (pool size)` and
draws from the pool without replacement — i.e. no value occurs in `wa`
more often than in the pool (`random.sample` picks distinct positions, not
distinct values). When the pool is empty the `if available_words:` guard
leaves `wrong_answers = []`, which the same two conditions express. -/
def get_wrong_answers (words : List Word) (correct : String)
    (wa : List String) : Prop :=
  wa.length = min 3 (available_answers words correct).length ∧
  ∀ a, wa.count a ≤ (available_answers words correct).count a

/-- The option list built by `get_test_keyboard`: some `get_wrong_answers`
outcome, with the correct answer appended, then `random.shuffle`d — i.e.
any permutation of `wrong_answers + [correct_answer]`. -/
def get_test_keyboard (words : List Word) (correct : String)
    (opts : List String) : Prop :=
  ∃ wa, get_wrong_answers words correct wa ∧ opts.Perm (wa ++ [correct])

/-- An APScheduler job as `schedule_daily_notification` creates it:
identified by the string id `notify_{chat_id}`, firing daily at
`hour:minute`. -/
structure Job where
  id : String
  hour : Nat
  minute : Nat
deriving DecidableEq, Repr

/-- The job id `f"notify_{chat_id}"`. -/
def notifyId (chat_id : Int) : String := "notify_" ++ toString chat_id

/-- `schedule_daily_notification`, embedded over the scheduler's job list.
First the loop over `scheduler.get_jobs()` removes every job whose id is
`notify_{chat_id}`; then `add_job` installs the new job — unless the
`CronTrigger(hour=hour, minute=minute)` constructor rejects an
out-of-range time, which the `except` clause converts into `False`
(note the removal has already happened at that point). Returns the Python
return value paired with the job list after the call. -/
def schedule_daily_notification (jobs : List Job) (chat_id : Int)
    (hour minute : Nat) : Bool × List Job :=
  if hour ≤ 23 ∧ minute ≤ 59 then
    (true, jobs.filter (fun j => j.id ≠ notifyId chat_id)
             ++ [⟨notifyId chat_id, hour, minute⟩])
  else
    (false, jobs.filter (fun j => j.id ≠ notifyId chat_id))

/-- Python `int(text)` as used by the handlers: surrounding whitespace is
ignored, an optional sign then decimal digits; `none` models the
`ValueError`. (Restricted to ASCII digits, the only inputs the keyboards
and claims exercise.) -/
def pyInt (s : String) : Option Int :=
  match stripChars s.data with
  | [] => none
  | c :: rest =>
      if c = '-' then
        if rest ≠ [] ∧ rest.all isDigitChar then some (-(digitsToNat rest : Int))
        else none
      else if c = '+' then
        if rest ≠ [] ∧ rest.all isDigitChar then some ((digitsToNat rest : Int))
        else none
      else if (c :: rest).all isDigitChar then some ((digitsToNat (c :: rest) : Int))
      else none

/-- Python `str.isdigit()` on the handler inputs: non-empty and every
character a decimal digit. -/
def isDigitStr (s : String) : Bool := s.data ≠ [] && s.data.all isDigitChar

/-- The value `int(text)` takes on a string that passed `isdigit` (always
a `Nat`). -/
def digitVal (s : String) : Nat := digitsToNat s.data

/-- The values a conversation handler step returns to the
`ConversationHandler` (`ConversationHandler.END`, `CHOOSING_HOUR`,
`CHOOSING_MINUTE`). -/
inductive ConvRet where
  | END
  | CHOOSING_HOUR
  | CHOOSING_MINUTE
deriving DecidableEq, Repr

/-- The user-visible side effects of the two time-picker steps. Each
constructor records one outgoing Telegram call, in program order. -/
inductive Event where
  | cancelNotice
  | invalidHourPrompt
  | minutePrompt
  | invalidMinutePrompt
  | confirmation (hour minute : Nat)
  | immediateDelivery
  | errorMessage
deriving DecidableEq, Repr

/-- The observable result of one picker step: the handler's return value,
the `context.user_data['hour']` entry after the step, and the outgoing
calls it made. -/
structure StepResult where
  ret : ConvRet
  hourData : Option Nat
  events : List Event
deriving DecidableEq, Repr

/-- Outcome of the downstream registration call inside `minute_chosen`:
`schedule_daily_notification` returned `True`, returned `False`, or (as
the spec contemplates) the call raised — the `except` clause of
`minute_chosen` handles the last case. -/
inductive RegOutcome where
  | ok
  | failed
  | raised
deriving DecidableEq, Repr

/-- `hour_chosen`, embedded over the input text and the current
`user_data['hour']` entry. `Cancel` ends the conversation (this path does
not touch `user_data`); a parsed integer in `[0,23]` is stored and the
minute keyboard is sent; a `ValueError` or out-of-range value re-prompts
and stays in `CHOOSING_HOUR`. -/
def hour_chosen (text : String) (hourData : Option Nat) : StepResult :=
  if text = "Cancel" then
    ⟨.END, hourData, [.cancelNotice]⟩
  else
    match pyInt text with
    | none => ⟨.CHOOSING_HOUR, hourData, [.invalidHourPrompt]⟩
    | some h =>
        if 0 ≤ h ∧ h ≤ 23 then
          ⟨.CHOOSING_MINUTE, some h.toNat, [.minutePrompt]⟩
        else
          ⟨.CHOOSING_HOUR, hourData, [.invalidHourPrompt]⟩

/-- `minute_chosen`, embedded over the input text, the current
`user_data['hour']` entry, and the registration outcome. The whole body is
a `try` whose `finally` deletes `user_data['hour']` — so every path,
including the invalid-minute re-prompt that returns `CHOOSING_MINUTE`
from inside the `try`, leaves `hourData = none`. A missing hour on the
valid-minute path raises `KeyError`, which the `except` clause turns into
the generic error message. -/
def minute_chosen (text : String) (hourData : Option Nat)
    (reg : RegOutcome) : StepResult :=
  if text = "Cancel" then
    ⟨.END, none, [.cancelNotice]⟩
  else if ¬ (isDigitStr text = true) ∨ ¬ (digitVal text ≤ 59) then
    ⟨.CHOOSING_MINUTE, none, [.invalidMinutePrompt]⟩
  else
    match hourData with
    | none => ⟨.END, none, [.errorMessage]⟩
    | some hour =>
        match reg with
        | .ok => ⟨.END, none, [.confirmation hour (digitVal text), .immediateDelivery]⟩
        | .failed => ⟨.END, none, [.errorMessage]⟩
        | .raised => ⟨.END, none, [.errorMessage]⟩

/-- The outgoing Telegram calls `send_daily_words` can complete: the
"no words available" notice, the daily digest itself, or the generic
error message sent from the `except` clause. -/
inductive SendEvent where
  | noWordsMsg
  | digestMsg
  | generalErrorMsg
deriving DecidableEq, Repr

/-- `send_daily_words`, embedded over the fetch outcome its internal
`load_words_from_sheets()` call sees, the module-level `words` list, and
one success flag per outgoing Telegram call (`true` = the await returns,
`false` = it raises): `oNoWords` for the "no words" send, `oDigest` for
the digest send, `oErr` for the error-message send inside the `except`
clause. The result is `Except.error ()` exactly when an exception escapes
the function (only possible when the `except` clause's own send raises);
otherwise it is the `words` list after the call paired with the calls
that completed. `load_words_from_sheets` and `random.sample` cannot
raise here, so the `try` body fails only at the sends. -/
def send_daily_words (fetch : Except Unit (List (List String)))
    (words : List Word) (oNoWords oDigest oErr : Bool) :
    Except Unit (List Word × List SendEvent) :=
  let r := load_words_from_sheets fetch words
  if r.1 = false ∨ r.2.isEmpty then
    if oNoWords then .ok (r.2, [.noWordsMsg])
    else if oErr then .ok (r.2, [.generalErrorMsg])
    else .error ()
  else
    if oDigest then .ok (r.2, [.digestMsg])
    else if oErr then .ok (r.2, [.generalErrorMsg])
    else .error ()

/-- Modelled from the spec: the fire step of the scheduler is inside
APScheduler, not in this repository's source. Per §4.4, at fire time the
scheduler invokes the delivery callback and "a failure inside the
delivery callback … does not deregister or crash the scheduler — the job
remains active for the next cycle": firing returns the job list
unchanged, whatever the callback's outcome. -/
def fire_job (jobs : List Job)
    (callbackResult : Except Unit (List Word × List SendEvent)) :
    List Job × Bool :=
  (jobs, callbackResult.isOk)

/-! ### Helper lemmas (shared) -/

/-- A failed load leaves the `words` list untouched. -/
lemma load_fail_preserves (fetch : Except Unit (List (List String)))
    (words : List Word) (hfail : (load_words_from_sheets fetch words).1 = false) :
    (load_words_from_sheets fetch words).2 = words := by
  unfold load_words_from_sheets at *
  cases fetch with
  | error e => rfl
  | ok vals =>
      by_cases h : vals.length < 2
      · simp [h]
      · simp [h] at hfail

/-- A successful load's result does not depend on the prior `words` list. -/
lemma load_success_replaces (fetch : Except Unit (List (List String)))
    (words words' : List Word)
    (hsucc : (load_words_from_sheets fetch words).1 = true) :
    (load_words_from_sheets fetch words).2 = (load_words_from_sheets fetch words').2 := by
  unfold load_words_from_sheets at *
  cases fetch with
  | error e => simp at hsucc
  | ok vals =>
      by_cases h : vals.length < 2
      · simp [h] at hsucc
      · simp [h]

/-- Every record `parse_step` adds has its three essential fields non-empty. -/
lemma mem_parse_step (acc : List Word) (row : List String) (w : Word)
    (hmem : w ∈ parse_step acc row) :
    w ∈ acc ∨ (w.nimetskoyu ≠ "" ∧ w.ukrainskoyu ≠ "" ∧ w.anhliyskoyu ≠ "") := by
  unfold parse_step at hmem
  by_cases h1 : row.length ≥ 5 ∧ row.any (fun s => s ≠ "")
  · rw [if_pos h1] at hmem
    by_cases h2 : (rowToWord row).nimetskoyu ≠ "" ∧ (rowToWord row).ukrainskoyu ≠ "" ∧
        (rowToWord row).anhliyskoyu ≠ ""
    · rw [if_pos h2] at hmem
      rcases List.mem_append.mp hmem with h | h
      · exact Or.inl h
      · exact Or.inr (List.mem_singleton.mp h ▸ h2)
    · rw [if_neg h2] at hmem
      exact Or.inl hmem
  · rw [if_neg h1] at hmem
    exact Or.inl hmem

/-- Every record in the output of the parsing loop either was in the
accumulator or has its three essential fields non-empty. -/
lemma mem_foldl_parse_step (rows : List (List String)) (acc : List Word) (w : Word)
    (hmem : w ∈ rows.foldl parse_step acc) :
    w ∈ acc ∨ (w.nimetskoyu ≠ "" ∧ w.ukrainskoyu ≠ "" ∧ w.anhliyskoyu ≠ "") := by
  induction rows generalizing acc with
  | nil => exact Or.inl hmem
  | cons r rows ih =>
      rcases ih (parse_step acc r) hmem with h | h
      · exact mem_parse_step acc r w h
      · exact Or.inr h

/-- The correct answer never occurs in the distractor pool. -/
lemma correct_not_mem_available (words : List Word) (correct : String) :
    correct ∉ available_answers words correct := by
  intro hmem
  unfold available_answers at hmem
  rcases List.mem_map.mp hmem with ⟨w, hw, hww⟩
  have hp := (List.mem_filter.mp hw).2
  simp only [decide_eq_true_eq] at hp
  exact hp hww

/-- Removing every job with a given id then keeping only that id yields
nothing. -/
lemma filter_remove_then_keep (l : List Job) (nid : String) :
    (l.filter (fun j => j.id ≠ nid)).filter (fun j => j.id = nid) = [] := by
  induction l with
  | nil => rfl
  | cons a l ih =>
      by_cases h : a.id = nid
      · simp [List.filter_cons, h, ih]
      · simp [List.filter_cons, h, ih]

/-! ### Claim theorems -/

/-- C2: `schedule_daily_notification` keeps at most one live job per
chat id: whatever jobs already exist, registering twice for the same chat
(first at `h1:m1`, then at `h2:m2`, both valid times) leaves exactly one
job keyed `notify_{chat_id}`, and it fires at `h2:m2`. -/
theorem register_keeps_one_job_per_chat (jobs : List Job) (chat_id : Int)
    (h1 m1 h2 m2 : Nat) (hh1 : h1 ≤ 23) (hm1 : m1 ≤ 59)
    (hh2 : h2 ≤ 23) (hm2 : m2 ≤ 59) :
    ((schedule_daily_notification
        (schedule_daily_notification jobs chat_id h1 m1).2 chat_id h2 m2).2).filter
      (fun j => j.id = notifyId chat_id)
      = [⟨notifyId chat_id, h2, m2⟩] := by
  unfold schedule_daily_notification
  rw [if_pos ⟨hh2, hm2⟩]
  rw [if_pos ⟨hh1, hm1⟩]
  simp only [List.filter_append]
  rw [filter_remove_then_keep]
  simp [List.filter_cons]

/-- C2 witness: `register(chat=7, 9, 0)` then `register(chat=7, 18, 30)`
starting from an empty scheduler leaves exactly the 18:30 job for chat 7. -/
theorem register_keeps_one_job_per_chat_witness :
    ((schedule_daily_notification
        (schedule_daily_notification [] 7 9 0).2 7 18 30).2).filter
      (fun j => j.id = notifyId 7)
      = [⟨notifyId 7, 18, 30⟩] :=
  register_keeps_one_job_per_chat [] 7 9 0 18 30 (by decide) (by decide)
    (by decide) (by decide)

/-- C3: word loading is atomic. If `load_words_from_sheets` reports
failure, the `words` list after the call equals the list before it; if it
reports success, the resulting list is independent of the prior list
(full replacement) and equals the records parsed from the fetched
non-header rows. -/
theorem load_words_atomic (fetch : Except Unit (List (List String)))
    (words words' : List Word) :
    ((load_words_from_sheets fetch words).1 = false →
      (load_words_from_sheets fetch words).2 = words) ∧
    ((load_words_from_sheets fetch words).1 = true →
      (load_words_from_sheets fetch words).2 = (load_words_from_sheets fetch words').2) ∧
    (∀ rows, fetch = .ok rows → (load_words_from_sheets fetch words).1 = true →
      (load_words_from_sheets fetch words).2 = parse_rows (rows.drop 1)) := by
  refine ⟨load_fail_preserves fetch words, load_success_replaces fetch words words', ?_⟩
  intro rows hrows hsucc
  subst hrows
  unfold load_words_from_sheets at *
  by_cases h : rows.length < 2
  · simp [h] at hsucc
  · simp [h]

/-- C3 witness: a transport failure keeps the previous one-word
collection unchanged, and a successful two-row fetch replaces it with the
parsed record regardless of the prior collection. -/
theorem load_words_atomic_witness :
    (load_words_from_sheets (Except.error ()) [⟨"Hund", "собака", "dog", "", ""⟩]).2
        = [⟨"Hund", "собака", "dog", "", ""⟩] ∧
    (load_words_from_sheets (Except.ok [["h", "h", "h", "h", "h"],
        ["Hund", "собака", "dog", "", ""]]) [⟨"alt", "старе", "old", "", ""⟩]).2
      = (load_words_from_sheets (Except.ok [["h", "h", "h", "h", "h"],
        ["Hund", "собака", "dog", "", ""]]) []).2 :=
  ⟨(load_words_atomic (Except.error ()) [⟨"Hund", "собака", "dog", "", ""⟩] []).1 rfl,
   (load_words_atomic (Except.ok [["h", "h", "h", "h", "h"],
        ["Hund", "собака", "dog", "", ""]]) [⟨"alt", "старе", "old", "", ""⟩] []).2.1 rfl⟩

/-- C6: after a successful load, every stored record has non-empty
`Німецькою`, `Українською` and `Англійською` fields — rows whose first
three stripped cells are not all non-empty never reach the stored
collection. -/
theorem loaded_words_have_essential_fields
    (fetch : Except Unit (List (List String))) (words : List Word) (w : Word)
    (hsucc : (load_words_from_sheets fetch words).1 = true)
    (hmem : w ∈ (load_words_from_sheets fetch words).2) :
    w.nimetskoyu ≠ "" ∧ w.ukrainskoyu ≠ "" ∧ w.anhliyskoyu ≠ "" := by
  unfold load_words_from_sheets at hsucc hmem
  cases fetch with
  | error e => simp at hsucc
  | ok vals =>
      by_cases h : vals.length < 2
      · simp [h] at hsucc
      · simp only [h, if_false] at hmem
        rcases mem_foldl_parse_step (vals.drop 1) [] w hmem with habs | hgood
        · simp at habs
        · exact hgood

/-- C6 witness: loading a sheet with one well-formed row and one row whose
first cell strips to empty stores only the well-formed record, whose
essential fields are non-empty. -/
theorem loaded_words_have_essential_fields_witness :
    (⟨"Hund", "собака", "dog", "", ""⟩ : Word).nimetskoyu ≠ "" ∧
    (⟨"Hund", "собака", "dog", "", ""⟩ : Word).ukrainskoyu ≠ "" ∧
    (⟨"Hund", "собака", "dog", "", ""⟩ : Word).anhliyskoyu ≠ "" :=
  loaded_words_have_essential_fields
    (Except.ok [["h", "h", "h", "h", "h"], ["Hund ", "собака", "dog", "", ""],
      ["  ", "кіт", "cat", "", ""]])
    [] ⟨"Hund", "собака", "dog", "", ""⟩ (by decide) (by decide)

/-- C1: the code's behaviour at the claim's inputs. Feeding "14" at the
hour step stores the pending hour 14 and moves to the minute step; feeding
the invalid minute "61" does return `CHOOSING_MINUTE`, but the `finally`
clause of `minute_chosen` has already deleted `user_data['hour']`, so the
subsequent valid "30" finds no pending hour, emits the generic error
message and ends the conversation — instead of completing with (14, 30)
as the claim states. -/
theorem invalid_minute_drops_pending_hour :
    hour_chosen "14" none
        = ⟨ConvRet.CHOOSING_MINUTE, some 14, [Event.minutePrompt]⟩ ∧
    (minute_chosen "61" (some 14) RegOutcome.ok).ret = ConvRet.CHOOSING_MINUTE ∧
    (minute_chosen "61" (some 14) RegOutcome.ok).hourData = none ∧
    minute_chosen "30" (minute_chosen "61" (some 14) RegOutcome.ok).hourData
        RegOutcome.ok
      = ⟨ConvRet.END, none, [Event.errorMessage]⟩ := by
  decide

/-- Evaluation of `minute_chosen` on the path that reaches the
registration call: non-cancel input, valid minute, pending hour present. -/
lemma minute_chosen_valid (text : String) (hour : Nat) (reg : RegOutcome)
    (hnc : text ≠ "Cancel")
    (hdig : isDigitStr text = true) (hle : digitVal text ≤ 59) :
    minute_chosen text (some hour) reg =
      match reg with
      | RegOutcome.ok =>
          ⟨ConvRet.END, none,
            [Event.confirmation hour (digitVal text), Event.immediateDelivery]⟩
      | RegOutcome.failed => ⟨ConvRet.END, none, [Event.errorMessage]⟩
      | RegOutcome.raised => ⟨ConvRet.END, none, [Event.errorMessage]⟩ := by
  unfold minute_chosen
  rw [if_neg hnc]
  rw [if_neg (by push_neg; exact ⟨hdig, hle⟩)]

/-- C7: session cleanup in `minute_chosen` is unconditional. For every
non-cancel input that passes minute validation with a pending hour in the
session (i.e. every run that reaches the registration call), the pending
hour is gone from the session afterwards — whether the registration
returns success, returns failure, or raises. -/
theorem minute_step_clears_session (text : String) (hour : Nat) (reg : RegOutcome)
    (hnc : text ≠ "Cancel")
    (hdig : isDigitStr text = true) (hle : digitVal text ≤ 59) :
    (minute_chosen text (some hour) reg).hourData = none := by
  rw [minute_chosen_valid text hour reg hnc hdig hle]
  cases reg <;> rfl

/-- C7 witness: feeding "30" with pending hour 14 clears the session. -/
theorem minute_step_clears_session_witness :
    (minute_chosen "30" (some 14) RegOutcome.raised).hourData = none :=
  minute_step_clears_session "30" 14 RegOutcome.raised (by decide)
    (by decide) (by decide)

/-- C8: on a completed time pick (valid minute, pending hour present), a
successful registration sends the confirmation followed by exactly one
immediate delivery of the daily digest; a failed registration sends the
error message and triggers no immediate delivery. -/
theorem completion_registration_effects (text : String) (hour : Nat)
    (hnc : text ≠ "Cancel")
    (hdig : isDigitStr text = true) (hle : digitVal text ≤ 59) :
    (minute_chosen text (some hour) RegOutcome.ok).events
        = [Event.confirmation hour (digitVal text), Event.immediateDelivery] ∧
    ((minute_chosen text (some hour) RegOutcome.ok).events.count
        Event.immediateDelivery = 1) ∧
    (minute_chosen text (some hour) RegOutcome.failed).events
        = [Event.errorMessage] ∧
    Event.immediateDelivery ∉ (minute_chosen text (some hour) RegOutcome.failed).events := by
  rw [minute_chosen_valid text hour RegOutcome.ok hnc hdig hle]
  rw [minute_chosen_valid text hour RegOutcome.failed hnc hdig hle]
  refine ⟨rfl, ?_, rfl, ?_⟩
  · simp [List.count_cons]
  · simp

/-- C8 witness: completing with "30" and pending hour 14. -/
theorem completion_registration_effects_witness :
    (minute_chosen "30" (some 14) RegOutcome.ok).events
        = [Event.confirmation 14 30, Event.immediateDelivery] ∧
    ((minute_chosen "30" (some 14) RegOutcome.ok).events.count
        Event.immediateDelivery = 1) ∧
    (minute_chosen "30" (some 14) RegOutcome.failed).events
        = [Event.errorMessage] ∧
    Event.immediateDelivery ∉ (minute_chosen "30" (some 14) RegOutcome.failed).events :=
  completion_registration_effects "30" 14 (by decide) (by decide) (by decide)

/-- C4 counterexample: the distractor pool does not exclude duplicate
values. With two records sharing the translation "B" and correct answer
"A", `get_wrong_answers` can draw both copies of "B" (`random.sample`
distinguishes positions, not values), so `get_test_keyboard` can produce
the option list ["B", "B", "A"], which is not pairwise distinct. -/
theorem quiz_options_can_repeat :
    get_test_keyboard
      [⟨"eins", "A", "one", "", ""⟩, ⟨"zwei", "B", "two", "", ""⟩,
       ⟨"drei", "B", "three", "", ""⟩]
      "A" ["B", "B", "A"] ∧
    ¬ (["B", "B", "A"] : List String).Nodup := by
  constructor
  · refine ⟨["B", "B"], ⟨?_, ?_⟩, List.Perm.refl _⟩
    · decide
    · intro a
      rw [show available_answers
          [⟨"eins", "A", "one", "", ""⟩, ⟨"zwei", "B", "two", "", ""⟩,
           ⟨"drei", "B", "three", "", ""⟩] "A" = ["B", "B"] from by decide]
  · decide

/-- C4 amended: the distractor pool excludes the correct value but keeps
duplicate values, so the drawn distractors — and hence the option list —
are only guaranteed pairwise distinct when the records' translation
values are themselves pairwise distinct; under that assumption every
option list `get_test_keyboard` can produce is pairwise distinct (with
min(3, pool size) distractors drawn without replacement of positions). -/
theorem quiz_options_nodup_of_distinct_translations
    (words : List Word) (correct : String) (opts : List String)
    (hnd : (words.map Word.ukrainskoyu).Nodup)
    (hopts : get_test_keyboard words correct opts) :
    opts.Nodup := by
  obtain ⟨wa, ⟨hlen, hcnt⟩, hperm⟩ := hopts
  have havail : (available_answers words correct).Nodup := by
    unfold available_answers
    exact ((List.filter_sublist words).map Word.ukrainskoyu).nodup hnd
  have hwa : wa.Nodup := by
    rw [List.nodup_iff_count_le_one]
    intro a
    exact le_trans (hcnt a) (List.nodup_iff_count_le_one.mp havail a)
  have hcw : correct ∉ wa := by
    intro hc
    have h0 : (available_answers words correct).count correct = 0 :=
      List.count_eq_zero.mpr (correct_not_mem_available words correct)
    have h1 : wa.count correct = 0 := Nat.le_zero.mp (h0 ▸ hcnt correct)
    exact (List.count_eq_zero.mp h1) hc
  have happ : (wa ++ [correct]).Nodup := by
    rw [List.nodup_append]
    exact ⟨hwa, List.nodup_singleton correct,
      fun a ha hb => hcw ((List.mem_singleton.mp hb) ▸ ha)⟩
  exact hperm.nodup_iff.mpr happ

/-- C4 witness for the amended claim: with two distinct translations
"A" (correct) and "B", the producible option list ["B", "A"] is pairwise
distinct. -/
theorem quiz_options_nodup_of_distinct_translations_witness :
    (["B", "A"] : List String).Nodup :=
  quiz_options_nodup_of_distinct_translations
    [⟨"eins", "A", "one", "", ""⟩, ⟨"zwei", "B", "two", "", ""⟩] "A" ["B", "A"]
    (by decide)
    ⟨["B"], ⟨by decide, by
      intro a
      rw [show available_answers
          [⟨"eins", "A", "one", "", ""⟩, ⟨"zwei", "B", "two", "", ""⟩] "A"
          = ["B"] from by decide]⟩, List.Perm.refl _⟩

/-- C5: every option list `get_test_keyboard` can produce contains the
correct value exactly once (at least once, never twice), and when the
distractor pool is empty the question still forms, with the single option
equal to the correct answer. -/
theorem quiz_correct_appears_exactly_once
    (words : List Word) (correct : String) (opts : List String)
    (hopts : get_test_keyboard words correct opts) :
    opts.count correct = 1 ∧
    (available_answers words correct = [] → opts = [correct]) := by
  obtain ⟨wa, ⟨hlen, hcnt⟩, hperm⟩ := hopts
  have h0 : (available_answers words correct).count correct = 0 :=
    List.count_eq_zero.mpr (correct_not_mem_available words correct)
  have h1 : wa.count correct = 0 := Nat.le_zero.mp (h0 ▸ hcnt correct)
  constructor
  · rw [hperm.count_eq, List.count_append, h1]
    simp
  · intro hempty
    have hlen0 : wa.length = 0 := by rw [hlen, hempty]; rfl
    rw [List.length_eq_zero.mp hlen0] at hperm
    exact List.perm_singleton.mp hperm

/-- C5 witness: with a single record (pool empty), the only producible
option list is the singleton with the correct answer, containing it
exactly once. -/
theorem quiz_correct_appears_exactly_once_witness :
    (["A"] : List String).count "A" = 1 ∧
    (available_answers [⟨"eins", "A", "one", "", ""⟩] "A" = [] →
      (["A"] : List String) = ["A"]) :=
  quiz_correct_appears_exactly_once [⟨"eins", "A", "one", "", ""⟩] "A" ["A"]
    ⟨[], ⟨by decide, fun a => Nat.zero_le _⟩, List.Perm.refl _⟩

/-- C9 counterexample: not every failure raised inside the delivery
callback is caught. On a fire where the digest send raises and the
error-message send of the `except` clause also raises, the exception
escapes `send_daily_words` (here on a successful reload of one word:
digest path, `oDigest = false`, `oErr = false`). -/
theorem delivery_failure_can_propagate :
    send_daily_words
      (Except.ok [["h", "h", "h", "h", "h"], ["Hund", "собака", "dog", "", ""]])
      [] true false false
      = Except.error () := by
  rfl

/-- C9 amended: a failure in the reload-or-digest path of the delivery
callback is caught and answered with the error message, so no exception
escapes — unless the error-message send itself raises, in which case the
exception propagates out of the callback; in every case the fire leaves
the scheduler's job list unchanged, so the job remains registered and the
next day's fire still occurs. -/
theorem delivery_failure_caught_and_job_survives
    (fetch : Except Unit (List (List String))) (words : List Word)
    (oNoWords oDigest : Bool) (jobs : List Job)
    (r : Except Unit (List Word × List SendEvent)) :
    (∃ out, send_daily_words fetch words oNoWords oDigest true = .ok out) ∧
    (fire_job jobs r).1 = jobs := by
  constructor
  · unfold send_daily_words
    by_cases hc : (load_words_from_sheets fetch words).1 = false ∨
        (load_words_from_sheets fetch words).2.isEmpty
    · rw [if_pos hc]
      cases oNoWords <;> simp
    · rw [if_neg hc]
      cases oDigest <;> simp
  · rfl

/-- C10: at fire time the delivery callback reloads the word source
first; when that reload reports failure, the retained in-memory
collection — non-empty or not — is kept but never used: no digest is
sent, and (when the send goes through) the only message is the
"no words available" notice. -/
theorem stale_words_never_build_digest
    (fetch : Except Unit (List (List String))) (words : List Word)
    (oNoWords oDigest oErr : Bool) (out : List Word × List SendEvent)
    (hfail : (load_words_from_sheets fetch words).1 = false)
    (h : send_daily_words fetch words oNoWords oDigest oErr = .ok out) :
    out.1 = words ∧ SendEvent.digestMsg ∉ out.2 ∧
    (oNoWords = true → out.2 = [SendEvent.noWordsMsg]) := by
  have hpres := load_fail_preserves fetch words hfail
  unfold send_daily_words at h
  rw [if_pos (Or.inl hfail)] at h
  cases oNoWords with
  | true =>
      simp only [if_true] at h
      cases h
      exact ⟨hpres, by simp, fun _ => rfl⟩
  | false =>
      simp only [Bool.false_eq_true, if_false] at h
      cases oErr with
      | true =>
          simp only [if_true] at h
          cases h
          exact ⟨hpres, by simp, fun hc => by cases hc⟩
      | false => simp at h

/-- C10 witness: a transport failure at fire time with a non-empty stale
collection sends only the "no words" notice and keeps the stale words
unused. -/
theorem stale_words_never_build_digest_witness :
    (([⟨"Hund", "собака", "dog", "", ""⟩], [SendEvent.noWordsMsg]) :
        List Word × List SendEvent).1 = [⟨"Hund", "собака", "dog", "", ""⟩] ∧
    SendEvent.digestMsg ∉ (([⟨"Hund", "собака", "dog", "", ""⟩],
        [SendEvent.noWordsMsg]) : List Word × List SendEvent).2 ∧
    (true = true → (([⟨"Hund", "собака", "dog", "", ""⟩],
        [SendEvent.noWordsMsg]) : List Word × List SendEvent).2
      = [SendEvent.noWordsMsg]) :=
  stale_words_never_build_digest (Except.error ())
    [⟨"Hund", "собака", "dog", "", ""⟩] true true true
    ([⟨"Hund", "собака", "dog", "", ""⟩], [SendEvent.noWordsMsg]) rfl rfl

end GermanBot
